import Mathlib

/-!
Verification of the AI-response ingestion and history-store pipeline of
`src/app_mobile.py` (a Streamlit language-learning app).  The Python code is
shallowly embedded: JSON values are an inductive type, `json.loads` is a
fuel-based recursive-descent parser, string post-processing (`str.replace`,
`str.strip`) is modelled on `List Char`, and the stateful spreadsheet /
selection bookkeeping is modelled by explicit state passing.
-/

namespace GrammarApp

/-- JSON values as produced by Python's `json.loads`.  Numbers keep their
source lexeme (the claims under verification never inspect numeric values).
Object member lists may contain duplicate keys; lookup takes the last
occurrence, mirroring Python dict construction order. -/
inductive Json where
  | null
  | bool (b : Bool)
  | num (lexeme : String)
  | str (s : String)
  | arr (elems : List Json)
  | obj (members : List (String × Json))
deriving Repr

/-- JSON whitespace accepted between tokens by `json.loads`. -/
def isWsChar (c : Char) : Bool :=
  c = ' ' || c = '\t' || c = '\n' || c = '\r'

/-- Skip JSON whitespace. -/
def skipWs (s : List Char) : List Char := s.dropWhile isWsChar

/-- Value of a hexadecimal digit. -/
def hexVal (c : Char) : Option Nat :=
  if '0' ≤ c ∧ c ≤ '9' then some (c.toNat - '0'.toNat)
  else if 'a' ≤ c ∧ c ≤ 'f' then some (c.toNat - 'a'.toNat + 10)
  else if 'A' ≤ c ∧ c ≤ 'F' then some (c.toNat - 'A'.toNat + 10)
  else none

/-- Single-character JSON string escapes. -/
def escChar (c : Char) : Option Char :=
  if c = '"' then some '"'
  else if c = '\\' then some '\\'
  else if c = '/' then some '/'
  else if c = 'b' then some '\x08'
  else if c = 'f' then some '\x0c'
  else if c = 'n' then some '\n'
  else if c = 'r' then some '\r'
  else if c = 't' then some '\t'
  else none

/-- Parse the body of a JSON string after the opening quote; returns the
decoded characters and the remainder after the closing quote.  Unescaped
control characters are rejected, as in Python's strict mode. -/
def parseStringBody : List Char → Option (List Char × List Char)
  | [] => none
  | c :: rest =>
    if c = '"' then some ([], rest)
    else if c = '\\' then
      match rest with
      | 'u' :: h1 :: h2 :: h3 :: h4 :: rest4 =>
        match hexVal h1, hexVal h2, hexVal h3, hexVal h4 with
        | some a, some b, some c2, some d =>
          (parseStringBody rest4).map fun p =>
            (Char.ofNat (((a * 16 + b) * 16 + c2) * 16 + d) :: p.1, p.2)
        | _, _, _, _ => none
      | e :: rest2 =>
        match escChar e with
        | some ch => (parseStringBody rest2).map fun p => (ch :: p.1, p.2)
        | none => none
      | [] => none
    else if c.toNat < 32 then none
    else (parseStringBody rest).map fun p => (c :: p.1, p.2)

/-- Decimal digit test. -/
def isDigitChar (c : Char) : Bool := '0' ≤ c && c ≤ '9'

/-- Integer part of a JSON number: `0` or a nonzero digit followed by digits. -/
def parseIntDigits : List Char → Option (List Char × List Char)
  | [] => none
  | c :: rest =>
    if c = '0' then some (['0'], rest)
    else if isDigitChar c then
      some (c :: rest.takeWhile isDigitChar, rest.dropWhile isDigitChar)
    else none

/-- Optional fractional part `.digits` of a JSON number. -/
def parseFrac (s : List Char) : List Char × List Char :=
  match s with
  | '.' :: rest =>
    let ds := rest.takeWhile isDigitChar
    if ds.isEmpty then ([], s) else ('.' :: ds, rest.dropWhile isDigitChar)
  | _ => ([], s)

/-- Optional exponent part of a JSON number. -/
def parseExp (s : List Char) : List Char × List Char :=
  match s with
  | e :: rest =>
    if e = 'e' || e = 'E' then
      match rest with
      | sign :: rest2 =>
        if sign = '+' || sign = '-' then
          let ds := rest2.takeWhile isDigitChar
          if ds.isEmpty then ([], s) else (e :: sign :: ds, rest2.dropWhile isDigitChar)
        else
          let ds := rest.takeWhile isDigitChar
          if ds.isEmpty then ([], s) else (e :: ds, rest.dropWhile isDigitChar)
      | [] => ([], s)
    else ([], s)
  | [] => ([], s)

/-- JSON number lexeme. -/
def parseNumber (s : List Char) : Option (List Char × List Char) :=
  let p := match s with
    | '-' :: r => (['-'], r)
    | _ => (([] : List Char), s)
  match parseIntDigits p.2 with
  | none => none
  | some (ip, s2) =>
    let fp := parseFrac s2
    let ep := parseExp fp.2
    some (p.1 ++ ip ++ fp.1 ++ ep.1, ep.2)

/-- Expect a literal keyword prefix, returning the remainder. -/
def litPrefix (lit : List Char) (s : List Char) : Option (List Char) :=
  if lit.isPrefixOf s then some (s.drop lit.length) else none

mutual

/-- Recursive-descent JSON value parser with fuel (mirrors `json.loads`,
including the `NaN`/`Infinity` extensions Python accepts by default). -/
def parseValue : Nat → List Char → Option (Json × List Char)
  | 0, _ => none
  | fuel + 1, s =>
    match skipWs s with
    | [] => none
    | c :: rest =>
      if c = '\x7b' then
        match skipWs rest with
        | '\x7d' :: rest2 => some (Json.obj [], rest2)
        | rest2 => (parseMembers fuel rest2).map fun p => (Json.obj p.1, p.2)
      else if c = '[' then
        match skipWs rest with
        | ']' :: rest2 => some (Json.arr [], rest2)
        | rest2 => (parseElems fuel rest2).map fun p => (Json.arr p.1, p.2)
      else if c = '"' then
        (parseStringBody rest).map fun p => (Json.str (String.mk p.1), p.2)
      else if c = 't' then
        (litPrefix "true".data (c :: rest)).map fun r => (Json.bool true, r)
      else if c = 'f' then
        (litPrefix "false".data (c :: rest)).map fun r => (Json.bool false, r)
      else if c = 'n' then
        (litPrefix "null".data (c :: rest)).map fun r => (Json.null, r)
      else if c = 'N' then
        (litPrefix "NaN".data (c :: rest)).map fun r => (Json.num "NaN", r)
      else if c = 'I' then
        (litPrefix "Infinity".data (c :: rest)).map fun r => (Json.num "Infinity", r)
      else if c = '-' && ("-Infinity".data.isPrefixOf (c :: rest)) then
        (litPrefix "-Infinity".data (c :: rest)).map fun r => (Json.num "-Infinity", r)
      else
        (parseNumber (c :: rest)).map fun p => (Json.num (String.mk p.1), p.2)

/-- Members of a JSON object after the opening brace (nonempty case). -/
def parseMembers : Nat → List Char → Option (List (String × Json) × List Char)
  | 0, _ => none
  | fuel + 1, s =>
    match skipWs s with
    | '"' :: rest =>
      match parseStringBody rest with
      | none => none
      | some (key, rest2) =>
        match skipWs rest2 with
        | ':' :: rest3 =>
          match parseValue fuel rest3 with
          | none => none
          | some (v, rest4) =>
            match skipWs rest4 with
            | ',' :: rest5 =>
              (parseMembers fuel rest5).map fun p => ((String.mk key, v) :: p.1, p.2)
            | '\x7d' :: rest5 => some ([(String.mk key, v)], rest5)
            | _ => none
        | _ => none
    | _ => none

/-- Elements of a JSON array after the opening bracket (nonempty case). -/
def parseElems : Nat → List Char → Option (List Json × List Char)
  | 0, _ => none
  | fuel + 1, s =>
    match parseValue fuel s with
    | none => none
    | some (v, rest) =>
      match skipWs rest with
      | ',' :: rest2 => (parseElems fuel rest2).map fun p => (v :: p.1, p.2)
      | ']' :: rest2 => some ([v], rest2)
      | _ => none

end

/-- Python `json.loads`: parse a complete JSON document; trailing non-whitespace is
an error.  The fuel bound is generous: every recursive step consumes input. -/
def json_loads (s : String) : Option Json :=
  match parseValue (2 * s.length + 4) s.data with
  | some (v, rest) => if skipWs rest = [] then some v else none
  | none => none

/-! ### Marker stripping (`analyze_with_ai`, line 235)

`clean_text = response.text.replace('```json', '').replace('```', '').strip()`
-/

/-- One fuel-counted step structure for Python `str.replace`: at each position
either the pattern matches (replace and continue after it) or one character is
emitted.  Fuel `s.length + 1` always suffices since each step consumes input. -/
def pyReplaceF (old new : List Char) : Nat → List Char → List Char
  | 0, s => s
  | fuel + 1, s =>
    if !old.isEmpty && old.isPrefixOf s then
      new ++ pyReplaceF old new fuel (s.drop old.length)
    else
      match s with
      | [] => []
      | c :: t => c :: pyReplaceF old new fuel t

/-- Python `s.replace(old, new)` for a nonempty pattern (both uses in the
source have nonempty patterns; an empty pattern behaves as the identity here). -/
def pyReplace (old new s : List Char) : List Char :=
  pyReplaceF old new (s.length + 1) s

/-- Characters removed by Python `str.strip()` (ASCII whitespace). -/
def isStripChar (c : Char) : Bool :=
  c = ' ' || c = '\t' || c = '\n' || c = '\r' || c = '\x0b' || c = '\x0c'

/-- Python `str.strip()`. -/
def pyStrip (s : List Char) : List Char :=
  ((s.dropWhile isStripChar).reverse.dropWhile isStripChar).reverse

/-- The fenced-block opener removed first. -/
def fenceJson : List Char := "```json".data

/-- The bare fence marker removed second. -/
def fence : List Char := "```".data

/-- Line 235: strip fence markers, then whitespace. -/
def cleanText (raw : String) : String :=
  String.mk (pyStrip (pyReplace fence [] (pyReplace fenceJson [] raw.data)))

/-! ### Response extraction (`analyze_with_ai`, lines 233-244) -/

/-- Result of `analyze_with_ai`'s post-processing of the model reply:
`record r` is the parsed dict returned on success; `incomplete` stands for the
returned dict `(error "AI返回格式不完整", structure [])`; `failure` stands for
the `except` branch's dict `(error "AI分析失败: <exception>", structure [])`. -/
inductive ExtractResult where
  | record (r : Json)
  | incomplete
  | failure
deriving Repr

/-- Python `s == key` where `s` is a JSON value (used by `in` on lists):
only equal strings compare equal to a string key. -/
def jsonEqStr (key : String) : Json → Bool
  | Json.str s => s == key
  | _ => false

/-- Substring test, Python `needle in hay` for strings. -/
def strContainsAux (needle : List Char) : List Char → Bool
  | [] => needle.isPrefixOf []
  | c :: t => needle.isPrefixOf (c :: t) || strContainsAux needle t

/-- Python `key in j`: dict membership checks keys, list membership compares
elements, string membership is a substring test; other types raise
`TypeError` (`none`). -/
def pyContains (j : Json) (key : String) : Option Bool :=
  match j with
  | Json.obj kvs => some (kvs.any fun kv => kv.1 == key)
  | Json.arr xs => some (xs.any fun x => jsonEqStr key x)
  | Json.str s => some (strContainsAux key.data s.data)
  | _ => none

/-- Lines 236-244 applied to the already-cleaned text: parse, then
`if "structure" not in result or "translation" not in result` return the
incomplete-schema error dict, else return the parsed dict.  Any exception
(parse failure or `TypeError` from `in`) lands in the `except` branch. -/
def extractCore (cleaned : String) : ExtractResult :=
  match json_loads cleaned with
  | none => ExtractResult.failure
  | some result =>
    match pyContains result "structure" with
    | none => ExtractResult.failure
    | some hasS =>
      if !hasS then ExtractResult.incomplete
      else
        match pyContains result "translation" with
        | none => ExtractResult.failure
        | some hasT =>
          if !hasT then ExtractResult.incomplete else ExtractResult.record result

/-- The response extractor of `analyze_with_ai` (lines 235-244): strip
markers, parse, validate required keys. -/
def extract (raw : String) : ExtractResult := extractCore (cleanText raw)

/-! ### Prompt construction (`analyze_with_ai`, lines 205-231)

The f-string template, reproduced verbatim, split around the interpolated
`text` and around the five TokenGloss field names so that containment facts
can be read off the structure. -/

/-- Template up to the opening quotation mark before the interpolated text. -/
def promptPre : String :=
  "\n    请作为一位精通全球语言的语言学专家，分析以下文本：\n    “"

/-- Template from the closing quotation mark up to the `word` field name. -/
def promptA : String :=
  "”\n    \n    请执行以下步骤：\n    1. **自动识别** 输入文本的语言（例如：日语、英语、法语、韩语、中文、西班牙语等）。\n    2. **检查和润色：** 检查原文是否有语法错误、表达不自然或不地道的地方。\n        - 如果有错误或不地道，请提供一个**完全修正且地道的版本**。\n        - 如果原文完美或非常地道，请返回原文。\n    3. 将文本翻译成流畅的 **中文（简体）**。\n    4. 分析文本中的语气、惯用语、语法结构或断句逻辑。\n    5. 对文本进行逐词/逐结构拆解分析。\n\n    请输出一个严格的 JSON 格式对象，包含以下五个字段：\n    1. \"language\": 识别出的语言名称 (字符串，例如 \"英语\", \"日语\")。\n    2. \"correction\": **修正/润色后的版本** (如果原文无错，则返回原文)。\n    3. \"translation\": 中文翻译。\n    4. \"nuances\": 详细的语法笔记、惯用语解释或文化背景说明。\n    5. \"structure\": 一个列表，包含逐词拆解，每个元素包含：\n       - \""

/-- Template between the `word` and `reading` field names. -/
def promptB : String := "\": 原文单词/词组\n       - \""

/-- Template between the `reading` and `pos_meaning` field names. -/
def promptC : String := "\": 发音注音 (英语请提供IPA音标，日语提供罗马音，中文提供拼音)\n       - \""

/-- Template between the `pos_meaning` and `grammar` field names. -/
def promptD : String := "\": 词性及中文含义\n       - \""

/-- Template between the `grammar` and `standard` field names. -/
def promptE : String := "\": 简短语法说明 (时态、变位等)\n       - \""

/-- Template tail after the `standard` field name. -/
def promptF : String := "\": 原型/标准形式 (如动词原形)\n\n    请确保输出是合法的 JSON 格式。\n    "

/-- Everything following the interpolated text in the template. -/
def promptPost : String :=
  promptA ++ "word" ++ promptB ++ "reading" ++ promptC ++ "pos_meaning" ++
    promptD ++ "grammar" ++ promptE ++ "standard" ++ promptF

/-- The prompt string built by `analyze_with_ai` for input `text`
(lines 205-231). -/
def analyze_prompt (text : String) : String :=
  promptPre ++ text ++ promptPost

/-! ### Serialization (`json.dumps(result_data, ensure_ascii=False)`) -/

/-- Hex digit for low control-character escapes. -/
def hexDigit (n : Nat) : Char :=
  if n < 10 then Char.ofNat ('0'.toNat + n) else Char.ofNat ('a'.toNat + n - 10)

/-- Escaping of one character by `json.dumps` with `ensure_ascii=False`. -/
def escJsonChar (c : Char) : List Char :=
  if c = '"' then ['\\', '"']
  else if c = '\\' then ['\\', '\\']
  else if c = '\n' then ['\\', 'n']
  else if c = '\r' then ['\\', 'r']
  else if c = '\t' then ['\\', 't']
  else if c = '\x08' then ['\\', 'b']
  else if c = '\x0c' then ['\\', 'f']
  else if c.toNat < 32 then
    ['\\', 'u', '0', '0', hexDigit (c.toNat / 16), hexDigit (c.toNat % 16)]
  else [c]

/-- JSON string serialization. -/
def dumpStr (s : String) : String :=
  String.mk ('"' :: ((s.data.map escJsonChar).flatten ++ ['"']))

mutual

/-- Python `json.dumps(·, ensure_ascii=False)` with Python's default separators. -/
def dumps : Json → String
  | Json.null => "null"
  | Json.bool true => "true"
  | Json.bool false => "false"
  | Json.num lex => lex
  | Json.str s => dumpStr s
  | Json.arr xs => "[" ++ dumpsElems xs ++ "]"
  | Json.obj kvs => "\x7b" ++ dumpsMembers kvs ++ "\x7d"

/-- Comma-separated array elements. -/
def dumpsElems : List Json → String
  | [] => ""
  | [x] => dumps x
  | x :: y :: rest => dumps x ++ ", " ++ dumpsElems (y :: rest)

/-- Comma-separated object members. -/
def dumpsMembers : List (String × Json) → String
  | [] => ""
  | [kv] => dumpStr kv.1 ++ ": " ++ dumps kv.2
  | kv :: kv2 :: rest => dumpStr kv.1 ++ ": " ++ dumps kv.2 ++ ", " ++ dumpsMembers (kv2 :: rest)

end

/-! ### History store: reading (`load_history`, lines 45-66) -/

/-- One raw spreadsheet record as returned by `get_all_records()`
(header already consumed). -/
structure SheetRow where
  timestamp : String
  sentence : String
  data_json : String
  user : String
deriving Repr, DecidableEq

/-- One row of the in-memory history: original columns plus the decoded
`data` and derived `language` columns added on lines 57-58. -/
structure HistoryRow where
  timestamp : String
  sentence : String
  user : String
  data : Json
  language : Json
deriving Repr

/-- Line 57: `json.loads(x) if x else {}`; `none` when `json.loads` raises. -/
def decodeCell (s : String) : Option Json :=
  if s = "" then some (Json.obj []) else json_loads s

/-- Python `dict.get(key, default)`; with duplicate members the last
occurrence wins (dict construction order). -/
def pyGet (kvs : List (String × Json)) (key : String) (dflt : Json) : Json :=
  match kvs.reverse.find? (fun kv => kv.1 == key) with
  | some kv => kv.2
  | none => dflt

/-- Line 58: `x.get('language', '日语') if isinstance(x, dict) else '未知'`. -/
def langOf (data : Json) : Json :=
  match data with
  | Json.obj kvs => pyGet kvs "language" (Json.str "日语")
  | _ => Json.str "未知"

/-- The in-memory row derived from a raw row with decoded cell `d`. -/
def rowEntry (r : SheetRow) (d : Json) : HistoryRow :=
  ⟨r.timestamp, r.sentence, r.user, d, langOf d⟩

/-- The per-row decode of lines 56-58.  `df['data_json'].apply(...)` raises at
the first undecodable nonempty cell, so one bad cell fails the whole load. -/
def decodeRows : List SheetRow → Option (List HistoryRow)
  | [] => some []
  | r :: rest =>
    match decodeCell r.data_json with
    | none => none
    | some d => (decodeRows rest).map fun hs => rowEntry r d :: hs

/-- Function `load_history` (lines 45-66): decode every row, reverse so most recent
first; any exception is caught and an empty history is returned (line 64). -/
def load_history (rows : List SheetRow) : List HistoryRow :=
  match decodeRows rows with
  | none => []
  | some hs => hs.reverse

/-! ### History store: writing (`save_record`, lines 69-93) -/

/-- The header row written on first use (line 89). -/
def headerRow : List String := ["timestamp", "sentence", "data_json", "user"]

/-- gspread's `row_values` drops trailing empty cells, so an all-empty first
row reads back as `[]`. -/
def dropTrailingEmpty (row : List String) : List String :=
  (row.reverse.dropWhile fun c => c = "").reverse

/-- Call `worksheet.row_values(1)`: the first row's values, `[]` if the sheet is
empty. -/
def rowValues1 (log : List (List String)) : List String :=
  dropTrailingEmpty (log.head?.getD [])

/-- Function `save_record` (lines 69-93) acting on the sheet contents: build the
4-column row, seed the header if `row_values(1)` is falsy, append the row. -/
def save_record (log : List (List String)) (timestamp sentence user : String)
    (result_data : Json) : List (List String) :=
  let new_row := [timestamp, sentence, dumps result_data, user]
  let log1 := if rowValues1 log = [] then log ++ [headerRow] else log
  log1 ++ [new_row]

/-! ### Bulk delete (`delete_records_by_bulk`, lines 96-131) -/

/-- Python `list.index` (0-based first occurrence; `none` for `ValueError`). -/
def pyIndex : List String → String → Option Nat
  | [], _ => none
  | c :: rest, ts => if c = ts then some 0 else (pyIndex rest ts).map (· + 1)

/-- Lines 107-113: resolve each timestamp against the column-1 scan, skipping
keys that are not found; `+ 1` converts to 1-based sheet row indices. -/
def resolveRows (col : List String) (keys : List String) : List Nat :=
  keys.filterMap fun ts => (pyIndex col ts).map (· + 1)

/-- Insertion step of a stable descending sort. -/
def insertDesc (x : Nat) : List Nat → List Nat
  | [] => [x]
  | y :: ys => if y ≤ x then x :: y :: ys else y :: insertDesc x ys

/-- Stable descending sort, `rows_to_delete.sort(reverse=True)` (line 119). -/
def sortDesc : List Nat → List Nat
  | [] => []
  | x :: xs => insertDesc x (sortDesc xs)

/-- The sequence of 1-based row indices passed to `worksheet.delete_rows`, in
issue order (lines 105-124). -/
def deleteOrder (col : List String) (keys : List String) : List Nat :=
  sortDesc (resolveRows col keys)

/-! ### Selection state (`update_individual_selection` lines 145-150,
`update_selections` lines 152-172) -/

/-- The select-all flag and the `timestamp -> bool` selection dict held in
`st.session_state`. -/
structure SelectionState where
  select_all : Bool
  delete_selections : List (String × Bool)
deriving Repr, DecidableEq

/-- Python dict assignment `d[k] = v`: update in place if present, else
append. -/
def dictSet (d : List (String × Bool)) (k : String) (v : Bool) : List (String × Bool) :=
  if d.any fun kv => kv.1 == k then
    d.map fun kv => if kv.1 == k then (kv.1, v) else kv
  else d ++ [(k, v)]

/-- Dict lookup. -/
def dictGet (d : List (String × Bool)) (k : String) : Option Bool :=
  (d.find? fun kv => kv.1 == k).map fun kv => kv.2

/-- Handler `update_individual_selection` (lines 145-150): record the checkbox value
for `ts`, then clear the select-all flag if an entry was unchecked while it
was set.  `is_checked` is the widget value read on line 147. -/
def update_individual_selection (st : SelectionState) (ts : String)
    (is_checked : Bool) : SelectionState :=
  let sels := dictSet st.delete_selections ts is_checked
  let flag := if !is_checked && st.select_all then false else st.select_all
  ⟨flag, sels⟩

/-- Handler `update_selections` (lines 152-172): propagate the (already toggled)
select-all flag to every timestamp of the currently filtered view. -/
def update_selections (st : SelectionState) (filtered : List String) : SelectionState :=
  ⟨st.select_all, filtered.foldl (fun d ts => dictSet d ts st.select_all) st.delete_selections⟩

/-! ### Substring containment -/

/-- The string `needle` occurs verbatim inside `hay`. -/
def substr (needle hay : String) : Prop := needle.data <:+: hay.data

/-! ## Helper lemmas -/

theorem string_data_append (a b : String) : (a ++ b).data = a.data ++ b.data := rfl

theorem substr_of_data {n h : String} (u v : List Char)
    (e : h.data = u ++ (n.data ++ v)) : substr n h :=
  ⟨u, v, by rw [e, List.append_assoc]⟩

/-! ## Claim theorems -/

/-- Claim C5: for every raw input string that is not parseable as structured
data after marker stripping, `extract` returns the error value (the `except`
branch's error dict) rather than raising: the embedding is a total function
into `ExtractResult` and parse failure maps to `ExtractResult.failure`. -/
theorem claim5_malformed_is_value (raw : String)
    (h : json_loads (cleanText raw) = none) :
    extract raw = ExtractResult.failure := by
  show extractCore (cleanText raw) = ExtractResult.failure
  unfold extractCore
  rw [h]

/-- Witness for C5 at a concrete unparseable input. -/
theorem claim5_witness :
    json_loads (cleanText "hello") = none ∧ extract "hello" = ExtractResult.failure :=
  ⟨rfl, claim5_malformed_is_value "hello" rfl⟩

/-- Claim C6 counterexample: a log whose first row is a (non-header) data row
contains no header row, yet `save_record` does not seed the header — the code
tests `row_values(1)` for emptiness, not for the presence of a header row.
So "header is written iff the log has no header row" fails. -/
theorem claim6_counterexample :
    ([["a", "b", "c", "d"]] : List (List String)).head? ≠ some headerRow ∧
    save_record [["a", "b", "c", "d"]] "t" "s" "u" (Json.obj []) =
      [["a", "b", "c", "d"], ["t", "s", dumps (Json.obj []), "u"]] :=
  ⟨by decide, rfl⟩

/-- Claim C6 (amended): `save_record` appends exactly one data row with the
four columns `[timestamp, sentence, serialized_record, user]` in that order,
and a header row is written before it iff the first row of the log is empty
(`row_values(1)` falsy). -/
theorem claim6_amended (log : List (List String)) (ts sen user : String) (rec : Json) :
    ∃ seeded : List (List String),
      save_record log ts sen user rec = log ++ seeded ++ [[ts, sen, dumps rec, user]] ∧
      (seeded = [headerRow] ∨ seeded = []) ∧
      (seeded = [headerRow] ↔ rowValues1 log = []) := by
  by_cases h : rowValues1 log = []
  · refine ⟨[headerRow], ?_, Or.inl rfl, by simp [h]⟩
    simp [save_record, h]
  · refine ⟨[], ?_, Or.inr rfl, by simp [h]⟩
    simp [save_record, h]

/-- Claim C7: for every non-empty input text, the prompt built by
`analyze_with_ai` contains the text verbatim and contains each of the five
TokenGloss field names `word, reading, pos_meaning, grammar, standard`
verbatim. -/
theorem claim7_prompt_contains (text : String) (hne : text ≠ "") :
    substr text (analyze_prompt text) ∧
    substr "word" (analyze_prompt text) ∧
    substr "reading" (analyze_prompt text) ∧
    substr "pos_meaning" (analyze_prompt text) ∧
    substr "grammar" (analyze_prompt text) ∧
    substr "standard" (analyze_prompt text) := by
  refine ⟨?_, ?_, ?_, ?_, ?_, ?_⟩
  · exact substr_of_data promptPre.data promptPost.data
      (by simp [analyze_prompt, string_data_append])
  · exact substr_of_data (promptPre ++ text ++ promptA).data
      (promptB ++ "reading" ++ promptC ++ "pos_meaning" ++ promptD ++ "grammar" ++
        promptE ++ "standard" ++ promptF).data
      (by simp [analyze_prompt, promptPost, string_data_append])
  · exact substr_of_data (promptPre ++ text ++ promptA ++ "word" ++ promptB).data
      (promptC ++ "pos_meaning" ++ promptD ++ "grammar" ++ promptE ++ "standard" ++
        promptF).data
      (by simp [analyze_prompt, promptPost, string_data_append])
  · exact substr_of_data
      (promptPre ++ text ++ promptA ++ "word" ++ promptB ++ "reading" ++ promptC).data
      (promptD ++ "grammar" ++ promptE ++ "standard" ++ promptF).data
      (by simp [analyze_prompt, promptPost, string_data_append])
  · exact substr_of_data
      (promptPre ++ text ++ promptA ++ "word" ++ promptB ++ "reading" ++ promptC ++
        "pos_meaning" ++ promptD).data
      (promptE ++ "standard" ++ promptF).data
      (by simp [analyze_prompt, promptPost, string_data_append])
  · exact substr_of_data
      (promptPre ++ text ++ promptA ++ "word" ++ promptB ++ "reading" ++ promptC ++
        "pos_meaning" ++ promptD ++ "grammar" ++ promptE).data
      promptF.data
      (by simp [analyze_prompt, promptPost, string_data_append])

/-- Witness for C7 at the concrete input `"hello"`. -/
theorem claim7_witness :
    substr "hello" (analyze_prompt "hello") ∧
    substr "word" (analyze_prompt "hello") ∧
    substr "reading" (analyze_prompt "hello") ∧
    substr "pos_meaning" (analyze_prompt "hello") ∧
    substr "grammar" (analyze_prompt "hello") ∧
    substr "standard" (analyze_prompt "hello") :=
  claim7_prompt_contains "hello" (by decide)

/-- Claim C9: the language projection of `load_history` is not a fixed
constant: each row's `language` is derived from the decoded `data_json` cell
by `langOf` — the stored `language` value when present (dict lookup, last
occurrence winning), `日语` when the cell is empty (decoded as `{}`) or the
decoded object lacks a `language` key, and `未知` when the decoded value is
not an object. -/
theorem claim9_language_projection :
    (∀ ts sen u cell, load_history [(⟨ts, sen, cell, u⟩ : SheetRow)] =
      (match decodeCell cell with
       | none => []
       | some d => [rowEntry ⟨ts, sen, cell, u⟩ d])) ∧
    decodeCell "" = some (Json.obj []) ∧
    (∀ kvs, langOf (Json.obj kvs) = pyGet kvs "language" (Json.str "日语")) ∧
    (∀ kvs v, langOf (Json.obj (kvs ++ [("language", v)])) = v) ∧
    (∀ kvs, (kvs.any fun kv => kv.1 == "language") = false →
      langOf (Json.obj kvs) = Json.str "日语") ∧
    (∀ xs, langOf (Json.arr xs) = Json.str "未知") ∧
    (∀ s, langOf (Json.str s) = Json.str "未知") ∧
    (∀ n, langOf (Json.num n) = Json.str "未知") ∧
    (∀ b, langOf (Json.bool b) = Json.str "未知") ∧
    langOf Json.null = Json.str "未知" := by
  refine ⟨?_, rfl, fun kvs => rfl, ?_, ?_, fun xs => rfl, fun s => rfl,
    fun n => rfl, fun b => rfl, rfl⟩
  · intro ts sen u cell
    cases h : decodeCell cell with
    | none => simp [load_history, decodeRows, h]
    | some d => simp [load_history, decodeRows, h]
  · intro kvs v
    simp [langOf, pyGet]
  · intro kvs h
    have hfind : kvs.reverse.find? (fun kv => kv.1 == "language") = none := by
      rw [List.find?_eq_none]
      intro kv hkv
      have : kv ∈ kvs := List.mem_reverse.mp hkv
      by_contra hb
      have : kvs.any (fun kv => kv.1 == "language") = true :=
        List.any_eq_true.mpr ⟨kv, this, by simpa using hb⟩
      rw [h] at this
      cases this
    simp [langOf, pyGet, hfind]

/-- Witness for C9: a decoded object lacking a `language` key projects to the
default label. -/
theorem claim9_witness :
    langOf (Json.obj [("translation", Json.str "x")]) = Json.str "日语" :=
  claim9_language_projection.2.2.2.2.1 [("translation", Json.str "x")] (by decide)

theorem find?_setval (k t : String) (v : Bool) (h : (k == t) = false) :
    ∀ d : List (String × Bool),
      List.find? (fun kv => kv.1 == t)
          (d.map fun kv => if kv.1 == k then (kv.1, v) else kv) =
        List.find? (fun kv => kv.1 == t) d
  | [] => rfl
  | kv :: rest => by
    rw [List.map_cons]
    cases hkk : (kv.1 == k) with
    | true =>
      rw [if_pos rfl]
      have hkt : (kv.1 == t) = false := by
        have hk : kv.1 = k := by simpa using hkk
        simpa [hk] using h
      simp only [List.find?, hkt]
      exact find?_setval k t v h rest
    | false =>
      rw [if_neg (by simp)]
      cases hkt : (kv.1 == t) with
      | true => simp only [List.find?, hkt]
      | false =>
        simp only [List.find?, hkt]
        exact find?_setval k t v h rest

theorem dictGet_dictSet_ne (d : List (String × Bool)) (k t : String) (v : Bool)
    (h : t ≠ k) : dictGet (dictSet d k v) t = dictGet d t := by
  have hk : (k == t) = false := by simpa using fun he => (h he.symm).elim
  unfold dictSet dictGet
  by_cases ha : (d.any fun kv => kv.1 == k) = true
  · rw [if_pos ha, find?_setval k t v hk d]
  · rw [if_neg ha, List.find?_append]
    have hone : List.find? (fun kv => kv.1 == t) [(k, v)] = none := by
      simp only [List.find?, hk]
    rw [hone, Option.or_none]

/-- Claim C8: the select-all flag transition from on to off performed inside
`update_individual_selection` (line 150) changes only the flag itself: the
selection dict it leaves behind is exactly the one produced by the individual
checkbox assignment (line 148), it does not depend on the flag at all, and
every entry other than the one being unchecked keeps its previous value. -/
theorem claim8_toggle_only_flag (st : SelectionState) (ts : String)
    (h : st.select_all = true) :
    (update_individual_selection st ts false).select_all = false ∧
    (update_individual_selection st ts false).delete_selections =
      dictSet st.delete_selections ts false ∧
    (∀ b : Bool,
      (update_individual_selection ⟨b, st.delete_selections⟩ ts false).delete_selections =
        (update_individual_selection st ts false).delete_selections) ∧
    (∀ t', t' ≠ ts →
      dictGet (update_individual_selection st ts false).delete_selections t' =
        dictGet st.delete_selections t') := by
  refine ⟨by simp [update_individual_selection, h], rfl, fun b => rfl, ?_⟩
  intro t' ht
  exact dictGet_dictSet_ne _ _ _ _ ht

/-- Witness for C8: unchecking `"b"` while select-all is on clears the flag
but leaves the entry for `"a"` set. -/
theorem claim8_witness :
    (update_individual_selection ⟨true, [("a", true), ("b", true)]⟩ "b" false).select_all
      = false ∧
    dictGet (update_individual_selection ⟨true, [("a", true), ("b", true)]⟩ "b"
      false).delete_selections "a" = some true := by
  have hmain := claim8_toggle_only_flag ⟨true, [("a", true), ("b", true)]⟩ "b" rfl
  refine ⟨hmain.1, ?_⟩
  rw [hmain.2.2.2 "a" (by decide)]
  rfl

theorem pyIndex_spec : ∀ (col : List String) (ts : String) (i : Nat),
    pyIndex col ts = some i →
    i < col.length ∧ col.getD i "" = ts ∧ ∀ j, j < i → col.getD j "" ≠ ts := by
  intro col
  induction col with
  | nil => intro ts i h; cases h
  | cons c rest ih =>
    intro ts i h
    by_cases hc : c = ts
    · simp only [pyIndex, if_pos hc] at h
      cases h
      exact ⟨by simp, by simpa using hc, fun j hj => by omega⟩
    · simp only [pyIndex, if_neg hc, Option.map_eq_some'] at h
      obtain ⟨i', hi', rfl⟩ := h
      obtain ⟨h1, h2, h3⟩ := ih ts i' hi'
      refine ⟨by simpa using h1, by simpa using h2, ?_⟩
      intro j hj
      cases j with
      | zero => simpa using hc
      | succ j' =>
        have := h3 j' (by omega)
        simpa using this

theorem mem_resolveRows_succ {col keys : List String} {j : Nat}
    (h : (j + 1) ∈ resolveRows col keys) : ∃ ts ∈ keys, pyIndex col ts = some j := by
  unfold resolveRows at h
  rw [List.mem_filterMap] at h
  obtain ⟨ts, hts, hmap⟩ := h
  rw [Option.map_eq_some'] at hmap
  obtain ⟨a, ha, hai⟩ := hmap
  have : a = j := by omega
  subst this
  exact ⟨ts, hts, ha⟩

/-- Claim C10: `delete_records_by_bulk` resolves each timestamp via
`list.index`, i.e. to the first (topmost) occurrence in the column-1 scan:
the resolved index holds the timestamp and no earlier index does, and a row
that repeats an earlier row's timestamp is never selected for deletion. -/
theorem claim10_topmost (col keys : List String) :
    (∀ ts i, pyIndex col ts = some i →
      i < col.length ∧ col.getD i "" = ts ∧ ∀ j, j < i → col.getD j "" ≠ ts) ∧
    (∀ j, j < col.length →
      (∃ i, i < j ∧ col.getD i "" = col.getD j "") →
      (j + 1) ∉ resolveRows col keys) := by
  refine ⟨fun ts i h => pyIndex_spec col ts i h, ?_⟩
  rintro j _ ⟨i, hij, heq⟩ hmem
  obtain ⟨ts, _, hp⟩ := mem_resolveRows_succ hmem
  obtain ⟨_, h2, h3⟩ := pyIndex_spec col ts j hp
  exact h3 i hij (heq.trans h2)

/-- Witness for C10: with a duplicated timestamp `"t"` in rows 1 and 2, only
row 1 is selected; the theorem applied at that input excludes row 2. -/
theorem claim10_witness :
    (2 : Nat) ∉ resolveRows ["t", "t"] ["t"] ∧
    (["t", "t"] : List String).getD 0 "" = "t" := by
  have hmain := claim10_topmost ["t", "t"] ["t"]
  exact ⟨hmain.2 1 (by decide) ⟨0, by decide, rfl⟩,
    ((hmain.1 "t" 0 rfl).2.1 : _)⟩

theorem insertDesc_perm (x : Nat) (l : List Nat) : (insertDesc x l).Perm (x :: l) := by
  induction l with
  | nil => exact List.Perm.refl _
  | cons y ys ih =>
    unfold insertDesc
    by_cases h : y ≤ x
    · rw [if_pos h]
    · rw [if_neg h]
      exact (ih.cons y).trans (List.Perm.swap x y ys)

theorem sortDesc_perm (l : List Nat) : (sortDesc l).Perm l := by
  induction l with
  | nil => exact List.Perm.refl _
  | cons x xs ih => exact (insertDesc_perm x (sortDesc xs)).trans (ih.cons x)

theorem insertDesc_sorted {x : Nat} {l : List Nat}
    (h : List.Pairwise (· ≥ ·) l) : List.Pairwise (· ≥ ·) (insertDesc x l) := by
  induction l with
  | nil => simp [insertDesc]
  | cons y ys ih =>
    rw [List.pairwise_cons] at h
    obtain ⟨hy, hys⟩ := h
    unfold insertDesc
    by_cases hxy : y ≤ x
    · rw [if_pos hxy]
      refine List.pairwise_cons.mpr ⟨?_, List.pairwise_cons.mpr ⟨hy, hys⟩⟩
      intro z hz
      rcases List.mem_cons.mp hz with rfl | hz
      · exact hxy
      · exact le_trans (hy z hz) hxy
    · rw [if_neg hxy]
      refine List.pairwise_cons.mpr ⟨?_, ih hys⟩
      intro z hz
      rw [(insertDesc_perm x ys).mem_iff] at hz
      rcases List.mem_cons.mp hz with rfl | hz
      · omega
      · exact hy z hz

theorem sortDesc_sorted (l : List Nat) : List.Pairwise (· ≥ ·) (sortDesc l) := by
  induction l with
  | nil => simp [sortDesc]
  | cons x xs ih => exact insertDesc_sorted ih

theorem resolveRows_nodup {col keys : List String} (h : keys.Nodup) :
    (resolveRows col keys).Nodup := by
  apply List.Nodup.filterMap ?_ h
  intro a a' b hb hb'
  rw [Option.mem_def, Option.map_eq_some'] at hb hb'
  obtain ⟨i, hi, rfl⟩ := hb
  obtain ⟨i', hi', he⟩ := hb'
  have hii : i' = i := by omega
  rw [hii] at hi'
  have g1 := (pyIndex_spec col a i hi).2.1
  have g2 := (pyIndex_spec col a' i hi').2.1
  rw [← g1, ← g2]

/-- Claim C3: for a duplicate-free key set, `delete_records_by_bulk` issues
its `delete_rows` calls in strictly descending row-index order, and the
issued indices are exactly (a permutation of) the resolved ones from the
fresh column-1 scan. -/
theorem claim3_delete_descending (col keys : List String) (hnd : keys.Nodup) :
    List.Pairwise (· > ·) (deleteOrder col keys) ∧
    (deleteOrder col keys).Perm (resolveRows col keys) := by
  have hperm : (deleteOrder col keys).Perm (resolveRows col keys) :=
    sortDesc_perm (resolveRows col keys)
  refine ⟨?_, hperm⟩
  have hs : List.Pairwise (· ≥ ·) (deleteOrder col keys) :=
    sortDesc_sorted (resolveRows col keys)
  have hnd' : (deleteOrder col keys).Nodup :=
    hperm.symm.nodup (resolveRows_nodup hnd)
  exact (hs.and hnd').imp fun hab => lt_of_le_of_ne hab.1 (Ne.symm hab.2)

/-- Witness for C3, reproducing the spec's example: keys resolving to
ascending sheet rows `[2, 5, 7]` are deleted in the exact order `[7, 5, 2]`. -/
theorem claim3_witness :
    deleteOrder ["x", "t1", "y", "z", "t2", "w", "t3"] ["t1", "t2", "t3"] = [7, 5, 2] ∧
    List.Pairwise (· > ·)
      (deleteOrder ["x", "t1", "y", "z", "t2", "w", "t3"] ["t1", "t2", "t3"]) :=
  ⟨by decide,
    (claim3_delete_descending ["x", "t1", "y", "z", "t2", "w", "t3"] ["t1", "t2", "t3"]
      (by decide)).1⟩

theorem isPrefixOf_length_le : ∀ (p s : List Char), p.isPrefixOf s = true → p.length ≤ s.length
  | [], s => fun _ => Nat.zero_le _
  | _ :: _, [] => fun h => by cases h
  | a :: as, b :: bs => fun h => by
    rw [List.isPrefixOf, Bool.and_eq_true] at h
    have := isPrefixOf_length_le as bs h.2
    simpa using this

theorem prefixCond_facts {old s : List Char}
    (hc : (!old.isEmpty && old.isPrefixOf s) = true) :
    0 < old.length ∧ old.length ≤ s.length := by
  rw [Bool.and_eq_true] at hc
  obtain ⟨h1, h2⟩ := hc
  refine ⟨?_, isPrefixOf_length_le _ _ h2⟩
  rcases old with _ | ⟨c, os⟩
  · simp at h1
  · simp

theorem pyReplaceF_fuel (old new : List Char) :
    ∀ f1 f2 : Nat, ∀ s : List Char, s.length < f1 → s.length < f2 →
      pyReplaceF old new f1 s = pyReplaceF old new f2 s := by
  intro f1
  induction f1 with
  | zero => intro f2 s h1 h2; omega
  | succ a ih =>
    intro f2 s h1 h2
    cases f2 with
    | zero => omega
    | succ b =>
      simp only [pyReplaceF]
      by_cases hc : (!old.isEmpty && old.isPrefixOf s) = true
      · rw [if_pos hc, if_pos hc]
        congr 1
        obtain ⟨hol, hos⟩ := prefixCond_facts hc
        have hlen : (s.drop old.length).length = s.length - old.length :=
          List.length_drop _ _
        exact ih _ _ (by omega) (by omega)
      · rw [if_neg hc, if_neg hc]
        cases s with
        | nil => rfl
        | cons c t =>
          simp only [List.length_cons] at h1 h2
          exact congrArg (c :: ·) (ih _ _ (by omega) (by omega))

theorem pyReplace_skip (c : Char) (os new : List Char) :
    ∀ s : List Char, c ∉ s → pyReplace (c :: os) new s = s := by
  intro s
  induction s with
  | nil =>
    intro _
    show pyReplaceF (c :: os) new 1 [] = []
    simp only [pyReplaceF]
    rw [if_neg (by simp [List.isPrefixOf])]
  | cons a t ih =>
    intro hmem
    have hca : (c == a) = false := by
      simp only [beq_eq_false_iff_ne]
      exact fun h => hmem (h ▸ List.mem_cons_self a t)
    show pyReplaceF (c :: os) new (t.length + 2) (a :: t) = a :: t
    simp only [pyReplaceF]
    rw [if_neg (by simp [List.isPrefixOf, hca])]
    exact congrArg (a :: ·) (ih fun h => hmem (List.mem_cons_of_mem a h))

theorem pyReplace_append (c : Char) (os new : List Char) :
    ∀ p t : List Char, c ∉ p →
      pyReplace (c :: os) new (p ++ t) = p ++ pyReplace (c :: os) new t := by
  intro p
  induction p with
  | nil => intro t _; rfl
  | cons a p' ih =>
    intro t hmem
    have hca : (c == a) = false := by
      simp only [beq_eq_false_iff_ne]
      exact fun h => hmem (h ▸ List.mem_cons_self a p')
    show pyReplaceF (c :: os) new ((p' ++ t).length + 2) (a :: (p' ++ t)) =
      a :: (p' ++ pyReplace (c :: os) new t)
    simp only [pyReplaceF]
    rw [if_neg (by simp [List.isPrefixOf, hca])]
    exact congrArg (a :: ·) (ih t fun h => hmem (List.mem_cons_of_mem a h))

theorem isPrefixOf_self_append : ∀ (l t : List Char), l.isPrefixOf (l ++ t) = true
  | [], t => by cases t <;> rfl
  | a :: l, t => by
    rw [List.cons_append, List.isPrefixOf, Bool.and_eq_true]
    exact ⟨by simp, isPrefixOf_self_append l t⟩

theorem pyReplaceF_succ (old new : List Char) (f : Nat) (s : List Char) :
    pyReplaceF old new (f + 1) s =
      if (!old.isEmpty && old.isPrefixOf s) = true then
        new ++ pyReplaceF old new f (s.drop old.length)
      else
        match s with
        | [] => []
        | c :: t => c :: pyReplaceF old new f t := rfl

theorem pyReplace_match (o : Char) (os new t : List Char) :
    pyReplace (o :: os) new ((o :: os) ++ t) = new ++ pyReplace (o :: os) new t := by
  have hstep : pyReplace (o :: os) new ((o :: os) ++ t) =
      new ++ pyReplaceF (o :: os) new ((o :: os) ++ t).length
        (((o :: os) ++ t).drop (o :: os).length) := by
    show pyReplaceF (o :: os) new (((o :: os) ++ t).length + 1) ((o :: os) ++ t) = _
    rw [pyReplaceF_succ, if_pos (by simp [isPrefixOf_self_append])]
  rw [hstep, List.drop_left]
  congr 1
  apply pyReplaceF_fuel
  · simp only [List.length_append, List.length_cons]
    omega
  · omega

theorem pyReplace_skip' (old new : List Char) (c : Char) (os : List Char)
    (ho : old = c :: os) (s : List Char) (h : c ∉ s) : pyReplace old new s = s := by
  subst ho
  exact pyReplace_skip c os new s h

theorem pyReplace_append' (old new : List Char) (c : Char) (os : List Char)
    (ho : old = c :: os) (p t : List Char) (h : c ∉ p) :
    pyReplace old new (p ++ t) = p ++ pyReplace old new t := by
  subst ho
  exact pyReplace_append c os new p t h

theorem pyReplace_match' (old new t : List Char) (c : Char) (os : List Char)
    (ho : old = c :: os) :
    pyReplace old new (old ++ t) = new ++ pyReplace old new t := by
  subst ho
  exact pyReplace_match c os new t

theorem cleanText_fenced (s : String) (h : '`' ∉ s.data) :
    cleanText ("```json" ++ s ++ "```") = cleanText s := by
  unfold cleanText
  have hdata : ("```json" ++ s ++ "```").data = fenceJson ++ (s.data ++ fence) := by
    rw [string_data_append, string_data_append, List.append_assoc]
    rfl
  have e1 : pyReplace fenceJson [] (fenceJson ++ (s.data ++ fence)) =
      [] ++ pyReplace fenceJson [] (s.data ++ fence) :=
    pyReplace_match' fenceJson [] (s.data ++ fence) '`' "``json".data rfl
  have e2 : pyReplace fenceJson [] (s.data ++ fence) =
      s.data ++ pyReplace fenceJson [] fence :=
    pyReplace_append' fenceJson [] '`' "``json".data rfl s.data fence h
  have e3 : pyReplace fenceJson [] fence = fence := by decide
  have e4 : pyReplace fence [] (s.data ++ fence) =
      s.data ++ pyReplace fence [] fence :=
    pyReplace_append' fence [] '`' "``".data rfl s.data fence h
  have e5 : pyReplace fence [] fence = [] := by decide
  have e6 : pyReplace fenceJson [] s.data = s.data :=
    pyReplace_skip' fenceJson [] '`' "``json".data rfl s.data h
  have e7 : pyReplace fence [] s.data = s.data :=
    pyReplace_skip' fence [] '`' "``".data rfl s.data h
  rw [hdata, e1, List.nil_append, e2, e3, e4, e5, List.append_nil, e6, e7]

/-- Claim C4: a valid reply wrapped in fence markers (` ```json ... ``` `)
extracts to the same result as the unwrapped reply (for payloads containing
no backtick, so the fences are the only markers present). -/
theorem claim4_fenced_equivalent (s : String) (h : '`' ∉ s.data) :
    extract ("```json" ++ s ++ "```") = extract s := by
  show extractCore (cleanText ("```json" ++ s ++ "```")) = extractCore (cleanText s)
  rw [cleanText_fenced s h]

/-- Witness for C4 at a concrete wrapped JSON object. -/
theorem claim4_witness :
    '`' ∉ "\x7b\"translation\": 1, \"structure\": []\x7d".data ∧
    extract ("```json" ++ "\x7b\"translation\": 1, \"structure\": []\x7d" ++ "```") =
      extract "\x7b\"translation\": 1, \"structure\": []\x7d" :=
  ⟨by decide, claim4_fenced_equivalent "\x7b\"translation\": 1, \"structure\": []\x7d"
    (by decide)⟩

/-- Claim C1 counterexample: the parsed reply `("translation": "x")` contains
the required key `translation` and merely lacks `structure`, yet the code
(line 238 tests `"structure" not in result or "translation" not in result`)
returns the incomplete-schema error dict instead of a record with `structure`
defaulted to the empty sequence. -/
theorem claim1_counterexample :
    json_loads (cleanText "\x7b\"translation\": \"x\"\x7d") =
      some (Json.obj [("translation", Json.str "x")]) ∧
    extract "\x7b\"translation\": \"x\"\x7d" = ExtractResult.incomplete :=
  ⟨rfl, rfl⟩

/-- Claim C1 (amended): for a parsed object reply, `extract` returns it as a
record iff it contains BOTH `translation` and `structure`; if either key is
missing the incomplete-schema error is returned (a missing `structure` is not
defaulted to the empty sequence). -/
theorem claim1_amended (raw : String) (kvs : List (String × Json))
    (h : json_loads (cleanText raw) = some (Json.obj kvs)) :
    ((kvs.any fun kv => kv.1 == "structure") = true →
      (kvs.any fun kv => kv.1 == "translation") = true →
      extract raw = ExtractResult.record (Json.obj kvs)) ∧
    ((kvs.any fun kv => kv.1 == "structure") = false ∨
      (kvs.any fun kv => kv.1 == "translation") = false →
      extract raw = ExtractResult.incomplete) := by
  have he : extract raw = extractCore (cleanText raw) := rfl
  constructor
  · intro hs ht
    rw [he]
    unfold extractCore
    rw [h]
    simp [pyContains, hs, ht]
  · intro hor
    rw [he]
    unfold extractCore
    rw [h]
    rcases hor with hs | ht
    · simp [pyContains, hs]
    · cases hcs : (kvs.any fun kv => kv.1 == "structure") with
      | false => simp [pyContains, hcs]
      | true => simp [pyContains, hcs, ht]

/-- Witness for C1 (amended): a reply with both keys yields the record. -/
theorem claim1_witness :
    extract "\x7b\"translation\": \"x\", \"structure\": []\x7d" =
      ExtractResult.record
        (Json.obj [("translation", Json.str "x"), ("structure", Json.arr [])]) :=
  (claim1_amended "\x7b\"translation\": \"x\", \"structure\": []\x7d"
    [("translation", Json.str "x"), ("structure", Json.arr [])] rfl).1 rfl rfl

theorem decodeRows_all_some : ∀ rows : List SheetRow,
    (∀ r ∈ rows, (decodeCell r.data_json).isSome = true) →
    decodeRows rows = some (rows.map fun r =>
      rowEntry r ((decodeCell r.data_json).getD (Json.obj [])))
  | [] => fun _ => rfl
  | r :: rest => fun h => by
    have hr := h r (List.mem_cons_self r rest)
    cases hd : decodeCell r.data_json with
    | none => rw [hd] at hr; cases hr
    | some d =>
      have hrest := decodeRows_all_some rest fun x hx => h x (List.mem_cons_of_mem r hx)
      simp [decodeRows, hd, hrest]

theorem decodeRows_exists_none : ∀ rows : List SheetRow,
    (∃ r ∈ rows, decodeCell r.data_json = none) → decodeRows rows = none
  | [] => fun ⟨r, hr, _⟩ => absurd hr (List.not_mem_nil r)
  | a :: rest => fun ⟨r, hr, hd⟩ => by
    rcases List.mem_cons.mp hr with rfl | hmem
    · simp [decodeRows, hd]
    · cases hda : decodeCell a.data_json with
      | none => simp [decodeRows, hda]
      | some d =>
        have hrest := decodeRows_exists_none rest ⟨r, hmem, hd⟩
        simp [decodeRows, hda, hrest]

/-- Claim C2 counterexample: a row whose nonempty `data_json` cell fails to
decode makes `json.loads` raise inside `df.apply`; the handler at line 64
returns an empty frame, so the bad row produces no placeholder entry AND the
well-formed second row is dropped too. -/
theorem claim2_counterexample :
    load_history [(⟨"t1", "s1", "nope", "u1"⟩ : SheetRow), ⟨"t2", "s2", "", "u2"⟩] = [] :=
  rfl

/-- Claim C2 (amended): if every row's `data_json` cell is empty or decodes,
`load_history` returns one entry per row (most recent first), empty cells
decoding to the empty-object placeholder; but if any row's nonempty cell
fails to decode, `load_history` returns the empty history — all rows are
dropped, not just the undecodable one. -/
theorem claim2_amended (rows : List SheetRow) :
    ((∀ r ∈ rows, (decodeCell r.data_json).isSome = true) →
      load_history rows = (rows.map fun r =>
        rowEntry r ((decodeCell r.data_json).getD (Json.obj []))).reverse) ∧
    ((∃ r ∈ rows, decodeCell r.data_json = none) → load_history rows = []) := by
  constructor
  · intro h
    unfold load_history
    rw [decodeRows_all_some rows h]
  · intro h
    unfold load_history
    rw [decodeRows_exists_none rows h]

/-- Witness for C2 (amended): an empty cell loads as the placeholder record;
an undecodable cell empties the whole load. -/
theorem claim2_witness :
    load_history [(⟨"t", "s", "", "u"⟩ : SheetRow)] =
      [rowEntry ⟨"t", "s", "", "u"⟩ (Json.obj [])] ∧
    load_history [(⟨"t1", "s1", "nope", "u1"⟩ : SheetRow)] = [] :=
  ⟨(claim2_amended [⟨"t", "s", "", "u"⟩]).1 (by decide),
   (claim2_amended [⟨"t1", "s1", "nope", "u1"⟩]).2
     ⟨⟨"t1", "s1", "nope", "u1"⟩, by decide, rfl⟩⟩

end GrammarApp
